import Mathlib

/-!
Verification of the voice-interview wizard (components PreCheck/Interview,
MicTest, and the assistant API route) against its natural-language
specification.  Each definition below is a shallow embedding of one function
of the TypeScript source; the theorems settle the frozen claims.
-/

namespace AiInterview

/-- One question/answer record of the interview, from the QA interface of the
Interview component: question text, answer text, answer duration in seconds.
The duration is modelled as a natural number; no claim depends on its
arithmetic. -/
structure QA where
  q : String
  aText : String
  durationSec : Nat
deriving DecidableEq

/-- JS truthiness of an optional string field such as data.text: absent and
empty-string values are falsy, every other string is truthy. -/
def jsTruthy : Option String → Bool
  | none => false
  | some s => s != ""

/-- JS String.prototype.trim, modelled over the character list: leading and
trailing whitespace removed. -/
def jsTrim (s : String) : String :=
  String.mk (((s.toList.dropWhile Char.isWhitespace).reverse.dropWhile
      Char.isWhitespace).reverse)

/-! ## Transcript serialization (handleEndInterview, Interview component) -/

/-- The answer value used by handleEndInterview: the JS expression
qa.aText or-else the empty string, which is the identity on strings. -/
def answerText (qa : QA) : String :=
  if qa.aText = "" then "" else qa.aText

/-- One serialized segment of the transcript, as concatenated by the loop body
of handleEndInterview. -/
def qaSegment (qa : QA) : String :=
  "질문 : " ++ qa.q ++ ", 답변 : " ++ answerText qa

/-- The forEach loop of handleEndInterview with its explicit index: append the
segment for each record and a ", " separator whenever the index is not the
last one.  The first argument is the total length of the log. -/
def serializeLoop (n : Nat) : Nat → List QA → String → String
  | _, [], acc => acc
  | i, qa :: rest, acc =>
      serializeLoop n (i + 1) rest
        (acc ++ qaSegment qa ++ (if i < n - 1 then ", " else ""))

/-- Serialization of a non-empty log, as performed by handleEndInterview. -/
def serializeLogs (qaLogs : List QA) : String :=
  serializeLoop qaLogs.length 0 qaLogs ""

/-- The interview content string computed by handleEndInterview: a fixed
no-records message for an empty log, otherwise the serialized log. -/
def interviewContent (qaLogs : List QA) : String :=
  if qaLogs.length = 0 then "면접 기록이 없습니다" else serializeLogs qaLogs

/-- Specification-side join: segments in order, separated by the separator,
with no trailing separator after the last segment. -/
def joinWith (sep : String) : List String → String
  | [] => ""
  | [s] => s
  | s :: s2 :: rest => s ++ sep ++ joinWith sep (s2 :: rest)

/-! ## Whisper result handling (processAudioToText, Interview component) -/

/-- Outcome of the whisper fetch as seen by processAudioToText: the request
threw, or a response arrived with an ok flag and an optional text field. -/
inductive WhisperFetchOutcome where
  | thrown
  | response (ok : Bool) (text : Option String)
deriving DecidableEq

/-- Observable result of the whisper-completion handler: the updated log, the
text scheduled (via the one-second timeout) for the next-question request,
and whether a user-visible error message was set. -/
structure ProcessAudioResult where
  qaLogs : List QA
  nextQuestionScheduled : Option String
  errorShown : Bool
deriving DecidableEq

/-- The functional update of processAudioToText: if the log is non-empty, the
last record receives the transcribed text and the measured duration. -/
def updateLastQA : List QA → String → Nat → List QA
  | [], _, _ => []
  | [qa], t, d => [{ qa with aText := t, durationSec := d }]
  | qa :: rest, t, d => qa :: updateLastQA rest t d

/-- The response-handling tail of processAudioToText: on an ok response whose
text field is truthy, record the text and duration on the last open record
and schedule the next-question request with that text; otherwise surface a
recognition error and leave the log untouched. -/
def processAudioToText (qaLogs : List QA) (recordDuration : Nat) :
    WhisperFetchOutcome → ProcessAudioResult
  | .thrown => ⟨qaLogs, none, true⟩
  | .response ok text =>
      if ok = true ∧ jsTruthy text = true then
        ⟨updateLastQA qaLogs (text.getD "") recordDuration,
         some (text.getD ""), false⟩
      else
        ⟨qaLogs, none, true⟩

/-! ## Speech playback (playTTS, Interview component) -/

/-- Outcome of one playTTS call: the synthesis request failed (non-ok response
or missing audio field), the request threw, or audio arrived and the play
call either was rejected (autoplay policy) or started playback. -/
inductive SynthOutcome where
  | httpError
  | thrown
  | audio (playOk : Bool)
deriving DecidableEq

/-- Observable state after playTTS: the aiState value, whether play was
invoked, and whether playback is still in progress (ended handler pending). -/
structure TtsView where
  aiState : Nat
  playAttempted : Bool
  playbackInProgress : Bool
deriving DecidableEq

/-- playTTS: on synthesis failure or a thrown error the handler sets
aiState to 2 at once without playing anything; on autoplay rejection it sets
aiState to 2 at once; on a successful play start aiState stays 1 until the
ended handler runs. -/
def playTTS : SynthOutcome → TtsView
  | .httpError => ⟨2, false, false⟩
  | .thrown => ⟨2, false, false⟩
  | .audio false => ⟨2, true, false⟩
  | .audio true => ⟨1, true, true⟩

/-- The onended handler installed by playTTS: marks the question finished. -/
def onAudioEnded (v : TtsView) : TtsView :=
  { v with aiState := 2, playbackInProgress := false }

/-! ## Next-question request (startNextQuestion, Interview component) -/

/-- Outcome of the assistant fetch in startNextQuestion. -/
inductive AssistantOutcome where
  | ok (message : String)
  | httpError
  | thrown
deriving DecidableEq

/-- Observable result of startNextQuestion: the updated log, the text handed
to playTTS, the aiState on return, and whether an error was surfaced. -/
structure NextQuestionResult where
  qaLogs : List QA
  ttsRequested : Option String
  aiState : Nat
  errorShown : Bool
deriving DecidableEq

/-- startNextQuestion: a call while aiState is already 1 returns at once;
otherwise, on success the question is appended to the log with an empty
answer and zero duration before playTTS is invoked with it; on failure an
error is surfaced and aiState returns to 0. -/
def startNextQuestion (aiState : Nat) (qaLogs : List QA)
    (o : AssistantOutcome) : NextQuestionResult :=
  if aiState = 1 then ⟨qaLogs, none, aiState, false⟩
  else
    match o with
    | .ok m => ⟨qaLogs ++ [⟨m, "", 0⟩], some m, 1, false⟩
    | .httpError => ⟨qaLogs, none, 0, true⟩
    | .thrown => ⟨qaLogs, none, 0, true⟩

/-! ## Session end (handleEndInterview, Interview component) -/

/-- The cached intake record as read back from client storage: the entry may
be absent, fail to parse, or yield a contact string (the JS expression
parsedData.contact or-else the empty string). -/
inductive CachedData where
  | absent
  | unparsable
  | parsed (contact : String)
deriving DecidableEq

/-- Contact normalization inside handleEndInterview: keep only digit
characters, hyphenate 11-digit numbers as 3-4-4 and 10-digit numbers as
3-3-4, and pass any other shape through unchanged; absent, unparsable, or
empty cache data yields an empty contact. -/
def contactNumberOf : CachedData → String
  | .absent => ""
  | .unparsable => ""
  | .parsed raw =>
      if raw = "" then ""
      else
        let digits := String.mk (raw.toList.filter Char.isDigit)
        if digits.length = 11 then
          digits.take 3 ++ "-" ++ ((digits.drop 3).take 4) ++ "-" ++ digits.drop 7
        else if digits.length = 10 then
          digits.take 3 ++ "-" ++ ((digits.drop 3).take 3) ++ "-" ++ digits.drop 6
        else raw

/-- Outcome of the webhook fetch at session end. -/
inductive DeliveryOutcome where
  | delivered
  | httpError
  | thrown
deriving DecidableEq

/-- Observable result of handleEndInterview: the payload of the single
webhook call, the number of delivery attempts made, and whether the
completion callback ran. -/
structure EndInterviewResult where
  transcriptSent : String
  contactSent : String
  deliveryAttempts : Nat
  completionFired : Bool
deriving DecidableEq

/-- handleEndInterview: serialize the log, read the cached contact, post the
payload once, log any delivery failure, and fire the completion callback in
the finally block regardless of the delivery outcome. -/
def handleEndInterview (qaLogs : List QA) (cached : CachedData)
    (outcome : DeliveryOutcome) : EndInterviewResult :=
  let content := interviewContent qaLogs
  let contact := contactNumberOf cached
  match outcome with
  | .delivered => ⟨content, contact, 1, true⟩
  | .httpError => ⟨content, contact, 1, true⟩
  | .thrown => ⟨content, contact, 1, true⟩

/-! ## Run polling (waitForRunCompletion, assistant API route) -/

/-- Status of the remote run as observed by one retrieve call. -/
inductive RunStatus where
  | completed
  | failed
  | cancelled
  | expired
  | queued
  | inProgress
  | requiresAction
deriving DecidableEq, BEq

/-- The terminal-failure test of the source: membership in the literal list
of the failed, cancelled, and expired statuses. -/
def isTerminalFailureStatus (st : RunStatus) : Bool :=
  [RunStatus.failed, RunStatus.cancelled, RunStatus.expired].contains st

/-- A status on which the polling loop stops: completion or terminal
failure. -/
def stopsPolling (st : RunStatus) : Bool :=
  decide (st = RunStatus.completed) || isTerminalFailureStatus st

/-- Result of the polling loop: the run completed, a terminal status was
observed and an error thrown, or the attempt ceiling was exhausted and the
timeout error thrown. -/
inductive WaitResult where
  | success
  | terminalError (st : RunStatus)
  | timedOut
deriving DecidableEq

/-- Trace statistics of one waitForRunCompletion call: its result, how many
retrieve calls were made, and how many milliseconds of fixed one-second
sleeps were performed. -/
structure WaitStats where
  res : WaitResult
  polls : Nat
  sleepMs : Nat
deriving DecidableEq

/-- The body of waitForRunCompletion: at each attempt retrieve the status
(modelled by the statuses function, indexed by attempt), return on
completed, throw on failed, cancelled, or expired, otherwise sleep 1000
milliseconds and continue; an exhausted attempt budget throws the timeout
error. -/
def waitLoop (statuses : Nat → RunStatus) : Nat → Nat → WaitStats
  | 0, _ => ⟨.timedOut, 0, 0⟩
  | fuel + 1, i =>
      if statuses i = RunStatus.completed then ⟨.success, 1, 0⟩
      else if isTerminalFailureStatus (statuses i) then
        ⟨.terminalError (statuses i), 1, 0⟩
      else
        ⟨(waitLoop statuses fuel (i + 1)).res,
         (waitLoop statuses fuel (i + 1)).polls + 1,
         (waitLoop statuses fuel (i + 1)).sleepMs + 1000⟩

/-- The maxAttempts default of waitForRunCompletion. -/
def maxPollAttempts : Nat := 60

/-- waitForRunCompletion with its default attempt ceiling of 60. -/
def waitForRunCompletion (statuses : Nat → RunStatus) : WaitStats :=
  waitLoop statuses maxPollAttempts 0

/-! ## Open-stream accounting (initializeRecording / startRecording / stream
cleanup, Interview and MicTest components) -/

/-- Capture-lifecycle events, at the granularity of the awaits in the
source: a start call runs its synchronous prefix (stopping the tracks of the
currently referenced stream) and leaves a getUserMedia acquisition pending;
a pending acquisition later resolves with a fresh stream, whose assignment
overwrites the stream reference without stopping a stream that was assigned
in between, or rejects; stop-recording and the release paths (session end,
retry, next, unmount) stop the tracks of the referenced stream. -/
inductive CaptureEvent where
  | startCall
  | acquireOk
  | acquireFail
  | stopRec
  | release
deriving DecidableEq

/-- Stream accounting: how many microphone streams are open (acquired and not
yet stopped), whether the stream reference currently holds a live stream,
and how many getUserMedia acquisitions are pending. -/
structure StreamCount where
  openStreams : Nat
  refOpen : Bool
  pending : Nat
deriving DecidableEq

/-- No stream exists and no acquisition is pending before the first start. -/
def initStreams : StreamCount := ⟨0, false, 0⟩

/-- Interview-side lifecycle: initializeRecording first stops the tracks of
any existing stream, then awaits getUserMedia; the resolution assigns the
new stream to the reference (leaving unstopped any stream assigned while it
was pending), and a rejection changes no stream; stopRecording and every
cleanup path stop the tracks of the referenced stream. -/
def interviewCaptureStep (s : StreamCount) : CaptureEvent → StreamCount
  | .startCall =>
      ⟨s.openStreams - (if s.refOpen then 1 else 0), false, s.pending + 1⟩
  | .acquireOk =>
      if s.pending = 0 then s
      else ⟨s.openStreams + 1, true, s.pending - 1⟩
  | .acquireFail =>
      if s.pending = 0 then s
      else ⟨s.openStreams, s.refOpen, s.pending - 1⟩
  | .stopRec =>
      ⟨s.openStreams - (if s.refOpen then 1 else 0), false, s.pending⟩
  | .release =>
      ⟨s.openStreams - (if s.refOpen then 1 else 0), false, s.pending⟩

/-- MicTest-side lifecycle: startRecording first stops and clears any
existing stream, then awaits getUserMedia, with the same assignment
behaviour on resolution; stopRecording keeps the stream open on purpose
(the audio is still needed), and the retry, next, and unmount paths stop
the tracks. -/
def micTestCaptureStep (s : StreamCount) : CaptureEvent → StreamCount
  | .startCall =>
      ⟨s.openStreams - (if s.refOpen then 1 else 0), false, s.pending + 1⟩
  | .acquireOk =>
      if s.pending = 0 then s
      else ⟨s.openStreams + 1, true, s.pending - 1⟩
  | .acquireFail =>
      if s.pending = 0 then s
      else ⟨s.openStreams, s.refOpen, s.pending - 1⟩
  | .stopRec => s
  | .release =>
      ⟨s.openStreams - (if s.refOpen then 1 else 0), false, s.pending⟩

/-- Stream accounting after a sequence of interview capture events. -/
def interviewCaptureRun (evs : List CaptureEvent) : StreamCount :=
  evs.foldl interviewCaptureStep initStreams

/-- Stream accounting after a sequence of MicTest capture events. -/
def micTestCaptureRun (evs : List CaptureEvent) : StreamCount :=
  evs.foldl micTestCaptureStep initStreams

/-- The admissibility of one capture event from a state: a start call is
admissible only when no getUserMedia acquisition is pending; every other
event is always admissible. -/
def startGuard (s : StreamCount) : CaptureEvent → Bool
  | CaptureEvent.startCall => decide (s.pending = 0)
  | _ => true

/-- An event sequence is overlap-free from a given state when no start call
is issued while a getUserMedia acquisition is still pending. -/
def overlapFree (stp : StreamCount → CaptureEvent → StreamCount) :
    StreamCount → List CaptureEvent → Bool
  | _, [] => true
  | s, e :: rest => startGuard s e && overlapFree stp (stp s e) rest

/-- Two start calls whose acquisitions are both pending at once in the
interview component: the user starts recording, stops it, and starts again
before the first getUserMedia call resolves; then both acquisitions
resolve. -/
def overlappingStarts : List CaptureEvent :=
  [.startCall, .stopRec, .startCall, .acquireOk, .acquireOk]

/-- The MicTest variant, reachable through the retry button, which is not
disabled while an acquisition is pending. -/
def overlappingRetries : List CaptureEvent :=
  [.startCall, .startCall, .acquireOk, .acquireOk]

/-! ## Stop-capture idempotence (stopRecording in both components) -/

/-- The references consulted by the interview stopRecording: whether a
recorder exists in a non-inactive state, whether an animation frame is
scheduled, and whether the stream reference is set. -/
structure InterviewRecorderRefs where
  recorderActive : Bool
  animationFrame : Bool
  streamSet : Bool
deriving DecidableEq

/-- Result of one interview stopRecording call: the reference state
afterwards and whether recorder.stop was invoked. -/
structure InterviewStopResult where
  refs : InterviewRecorderRefs
  recorderStopCalled : Bool
deriving DecidableEq

/-- The interview stopRecording: stop the recorder only if it is active,
cancel and clear the animation frame only if one is scheduled, stop and
clear the stream only if one is set. -/
def interviewStopRecording (s : InterviewRecorderRefs) : InterviewStopResult :=
  let stopCalled := s.recorderActive
  let s1 := if s.recorderActive then { s with recorderActive := false } else s
  let s2 := if s1.animationFrame then { s1 with animationFrame := false } else s1
  let s3 := if s2.streamSet then { s2 with streamSet := false } else s2
  ⟨s3, stopCalled⟩

/-- The references consulted by the MicTest stopRecording: the countdown
timer, the recorder reference, the isRecording flag, and the animation
frame. -/
structure MicTestRecorderRefs where
  timerSet : Bool
  recorderSet : Bool
  isRecording : Bool
  animationFrame : Bool
deriving DecidableEq

/-- Result of one MicTest stopRecording call. -/
structure MicTestStopResult where
  refs : MicTestRecorderRefs
  recorderStopCalled : Bool
deriving DecidableEq

/-- The MicTest stopRecording: clear the timer if set, stop and clear the
recorder only when one exists and recording is in progress, cancel the
animation frame if scheduled; the stream is deliberately left alone. -/
def micTestStopRecording (s : MicTestRecorderRefs) : MicTestStopResult :=
  let s1 := if s.timerSet then { s with timerSet := false } else s
  let stopCalled := s1.recorderSet && s1.isRecording
  let s2 :=
    if s1.recorderSet && s1.isRecording then
      { s1 with recorderSet := false, isRecording := false }
    else s1
  let s3 := if s2.animationFrame then { s2 with animationFrame := false } else s2
  ⟨s3, stopCalled⟩

/-! ## Self-test transcription outcome (handleRecordingComplete, MicTest) -/

/-- Outcome of the whisper fetch in the MicTest flow: thrown, a non-ok
response (which the handler turns into a thrown error), or an ok response
with an optional text field. -/
inductive MicWhisperOutcome where
  | thrown
  | httpError
  | ok (text : Option String)
deriving DecidableEq

/-- Observable outcome of handleRecordingComplete: the conversion result that
was displayed (none when the handler threw before setting it), the success
flag, and whether an error message was set. -/
structure MicConversionOutcome where
  conversionResult : Option String
  isSuccess : Bool
  errorShown : Bool
deriving DecidableEq

/-- handleRecordingComplete: a thrown error or non-ok response marks the test
failed with an error message; on an ok response the displayed result is the
text or-else the empty string, and the test succeeds exactly when the text
field is truthy and its trimmed value is non-empty. -/
def handleRecordingComplete : MicWhisperOutcome → MicConversionOutcome
  | .thrown => ⟨none, false, true⟩
  | .httpError => ⟨none, false, true⟩
  | .ok t =>
      if jsTruthy t = true ∧ jsTrim (t.getD "") ≠ "" then
        ⟨some (t.getD ""), true, false⟩
      else
        ⟨some (t.getD ""), false, false⟩

/-- The next-step button of MicTest is enabled exactly when the success flag
is set. -/
def micNextEnabled (o : MicConversionOutcome) : Bool :=
  o.isSuccess

/-! ## Interview component event machine (Interview component)

Events are the completions of the asynchronous operations of the component
and the user interactions; each step function clause is translated from the
corresponding handler in the source. -/

/-- Events of the interview component: successful or failed initialization,
assistant-fetch completion, playback completion or failure, the record
button, microphone-acquisition failure, whisper completion (with the
transcribed text and measured duration) or failure, and the firing of the
one-second delayed next-question timeout. -/
inductive Event where
  | initOk (tid : String)
  | initFail
  | assistantOk (q : String)
  | assistantFail
  | ttsDone
  | ttsFail
  | toggle
  | micFail
  | whisperOk (t : String) (d : Nat)
  | whisperFail
  | timerFire
deriving DecidableEq

/-- The state of the interview component: the recording flag (0 waiting, 1
recording), the aiState flag (0 idle, 1 question in progress, 2 awaiting
answer), the processing flag, the thread identifier, the question/answer
log, the in-flight markers of the assistant and whisper requests, the
playing marker of the audio element, the text captured by a scheduled
next-question timeout, whether a capture session is open, and whether an
error message is displayed. -/
structure MachineState where
  recordingState : Nat
  aiState : Nat
  isProcessing : Bool
  threadId : Option String
  qaLogs : List QA
  assistantInFlight : Bool
  ttsPlaying : Bool
  whisperInFlight : Bool
  pendingNext : Option String
  captureOpen : Bool
  errorShown : Bool
deriving DecidableEq

/-- The mount state of the component. -/
def initMachineState : MachineState :=
  ⟨0, 0, false, none, [], false, false, false, none, false, false⟩

/-- One event step of the interview component.  Each clause follows the
source handler: the mount effect stores the thread identifier and issues the
seed question through startNextQuestion (whose guard skips a call while
aiState is 1); a successful assistant fetch appends the question with an
empty answer and starts playback via playTTS, which keeps aiState at 1; a
failed assistant fetch surfaces an error and resets aiState to 0; playback
completion or failure sets aiState to 2; toggleRecording is a no-op while
aiState is 1 or processing is set, otherwise it starts a capture session or
stops it and begins whisper processing; a whisper success with truthy text
fills the last record and schedules the delayed next-question call, while an
empty text or a failure surfaces an error; the delayed timeout then runs
startNextQuestion with the captured text when a thread identifier exists.
Events whose trigger is not pending leave the state unchanged. -/
def step (s : MachineState) : Event → MachineState
  | .initOk tid =>
      if s.threadId = none then
        if s.aiState = 1 then { s with threadId := some tid }
        else { s with threadId := some tid, aiState := 1,
                      assistantInFlight := true }
      else s
  | .initFail =>
      if s.threadId = none then { s with errorShown := true } else s
  | .assistantOk q =>
      if s.assistantInFlight then
        { s with assistantInFlight := false,
                 qaLogs := s.qaLogs ++ [⟨q, "", 0⟩],
                 aiState := 1,
                 ttsPlaying := true }
      else s
  | .assistantFail =>
      if s.assistantInFlight then
        { s with assistantInFlight := false, aiState := 0, errorShown := true }
      else s
  | .ttsDone =>
      if s.ttsPlaying then { s with ttsPlaying := false, aiState := 2 } else s
  | .ttsFail =>
      if s.ttsPlaying then { s with ttsPlaying := false, aiState := 2 } else s
  | .toggle =>
      if s.aiState = 1 ∨ s.isProcessing = true then s
      else if s.recordingState = 0 then
        { s with recordingState := 1, captureOpen := true }
      else
        { s with recordingState := 0, captureOpen := false,
                 isProcessing := true, whisperInFlight := true }
  | .micFail =>
      if s.recordingState = 1 then
        { s with recordingState := 0, captureOpen := false, errorShown := true }
      else s
  | .whisperOk t d =>
      if s.whisperInFlight then
        if t = "" then
          { s with whisperInFlight := false, isProcessing := false,
                   errorShown := true }
        else
          { s with whisperInFlight := false, isProcessing := false,
                   qaLogs := updateLastQA s.qaLogs t d,
                   pendingNext := some t }
      else s
  | .whisperFail =>
      if s.whisperInFlight then
        { s with whisperInFlight := false, isProcessing := false,
                 errorShown := true }
      else s
  | .timerFire =>
      match s.pendingNext with
      | none => s
      | some _ =>
          let s1 := { s with pendingNext := none }
          match s1.threadId with
          | some _ =>
              if s1.aiState = 1 then s1
              else { s1 with aiState := 1, assistantInFlight := true }
          | none => { s1 with errorShown := true }

/-- The state reached from mount after a list of events. -/
def runEvents (evs : List Event) : MachineState :=
  evs.foldl step initMachineState

/-- A state of the interview component is reachable when some event sequence
leads to it from the mount state. -/
def Reachable (s : MachineState) : Prop :=
  ∃ evs : List Event, runEvents evs = s

/-- A concrete session: the first question is asked and played, the user
records and stops, transcription succeeds, and the user starts recording
again inside the one-second window before the delayed next-question call
fires. -/
def racingTrace : List Event :=
  [.initOk "thread-1", .assistantOk "질문1", .ttsDone, .toggle, .toggle,
   .whisperOk "답변1" 4, .toggle, .timerFire]

/-! ## Helper lemmas -/

theorem answerText_eq (qa : QA) : answerText qa = qa.aText := by
  unfold answerText
  by_cases h : qa.aText = "" <;> simp [h]

theorem joinWith_cons (sep s : String) (l : List String) (h : l ≠ []) :
    joinWith sep (s :: l) = s ++ sep ++ joinWith sep l := by
  cases l with
  | nil => exact absurd rfl h
  | cons t r => rfl

theorem serializeLoop_eq_joinWith (l : List QA) :
    ∀ (n i : Nat) (acc : String), l ≠ [] → i + l.length = n →
      serializeLoop n i l acc = acc ++ joinWith ", " (l.map qaSegment) := by
  induction l with
  | nil => intro n i acc h _; exact absurd rfl h
  | cons a t ih =>
    intro n i acc _ hlen
    cases t with
    | nil =>
      have hi : ¬ i < n - 1 := by
        simp only [List.length_cons, List.length_nil] at hlen
        omega
      simp [serializeLoop, hi, joinWith, String.append_empty]
    | cons b r =>
      have hi : i < n - 1 := by
        simp only [List.length_cons] at hlen
        omega
      have hlen2 : (i + 1) + (b :: r).length = n := by
        simp only [List.length_cons] at hlen ⊢
        omega
      rw [serializeLoop, if_pos hi,
        ih n (i + 1) (acc ++ qaSegment a ++ ", ") (by simp) hlen2]
      simp only [List.map_cons]
      rw [joinWith_cons ", " (qaSegment a) (qaSegment b :: List.map qaSegment r)
        (by simp)]
      simp [String.append_assoc]

/-- Shared helper: the serialization of a non-empty log is the separator-join
of one segment per record, in order. -/
theorem serializeLogs_eq_joinWith (qaLogs : List QA) (h : qaLogs ≠ []) :
    serializeLogs qaLogs = joinWith ", " (qaLogs.map qaSegment) := by
  unfold serializeLogs
  rw [serializeLoop_eq_joinWith qaLogs qaLogs.length 0 "" h (by omega),
    String.empty_append]

/-- Shared helper: interviewContent on a non-empty log is the joined
serialization. -/
theorem interviewContent_eq_joinWith (qaLogs : List QA) (h : qaLogs ≠ []) :
    interviewContent qaLogs = joinWith ", " (qaLogs.map qaSegment) := by
  unfold interviewContent
  rw [if_neg (by simpa using h), serializeLogs_eq_joinWith qaLogs h]

theorem updateLastQA_append (logs : List QA) (qa : QA) (t : String) (d : Nat) :
    updateLastQA (logs ++ [qa]) t d =
      logs ++ [{ qa with aText := t, durationSec := d }] := by
  induction logs with
  | nil => rfl
  | cons x xs ih =>
    cases xs with
    | nil => simp [updateLastQA]
    | cons y ys =>
      simp only [List.cons_append, updateLastQA] at ih ⊢
      exact congrArg (x :: ·) ih

theorem waitLoop_polls_le (statuses : Nat → RunStatus) :
    ∀ (fuel i : Nat), (waitLoop statuses fuel i).polls ≤ fuel := by
  intro fuel
  induction fuel with
  | zero => intro i; simp [waitLoop]
  | succ f ih =>
    intro i
    rw [waitLoop]
    by_cases h1 : statuses i = RunStatus.completed
    · rw [if_pos h1]
      show 1 ≤ f + 1
      omega
    · rw [if_neg h1]
      by_cases h2 : isTerminalFailureStatus (statuses i) = true
      · rw [if_pos h2]
        show 1 ≤ f + 1
        omega
      · rw [if_neg h2]
        show (waitLoop statuses f (i + 1)).polls + 1 ≤ f + 1
        have := ih (i + 1)
        omega

theorem waitLoop_timedOut_iff (statuses : Nat → RunStatus) :
    ∀ (fuel i : Nat),
      ((waitLoop statuses fuel i).res = WaitResult.timedOut ↔
        ∀ j, j < fuel → stopsPolling (statuses (i + j)) = false) := by
  intro fuel
  induction fuel with
  | zero => intro i; simp [waitLoop]
  | succ f ih =>
    intro i
    rw [waitLoop]
    by_cases h1 : statuses i = RunStatus.completed
    · rw [if_pos h1]
      constructor
      · intro h
        exact absurd (show WaitResult.success = WaitResult.timedOut from h)
          (by simp)
      · intro hall
        have h0 := hall 0 (Nat.succ_pos f)
        rw [Nat.add_zero, stopsPolling, h1] at h0
        exact absurd h0 (by decide)
    · rw [if_neg h1]
      by_cases h2 : isTerminalFailureStatus (statuses i) = true
      · rw [if_pos h2]
        constructor
        · intro h
          exact absurd
            (show WaitResult.terminalError (statuses i) = WaitResult.timedOut
              from h) (by simp)
        · intro hall
          have h0 := hall 0 (Nat.succ_pos f)
          rw [Nat.add_zero, stopsPolling, h2] at h0
          simp at h0
      · rw [if_neg h2]
        have hres : (WaitStats.mk (waitLoop statuses f (i + 1)).res
            ((waitLoop statuses f (i + 1)).polls + 1)
            ((waitLoop statuses f (i + 1)).sleepMs + 1000)).res =
            (waitLoop statuses f (i + 1)).res := rfl
        rw [hres, ih (i + 1)]
        constructor
        · intro hall j hj
          cases j with
          | zero =>
            rw [Nat.add_zero, stopsPolling]
            simp only [Bool.or_eq_false_iff, decide_eq_false_iff_not]
            exact ⟨h1, by simpa using h2⟩
          | succ k =>
            have hk := hall k (by omega)
            rw [show i + 1 + k = i + (k + 1) by omega] at hk
            exact hk
        · intro hall j hj
          have hk := hall (j + 1) (by omega)
          rw [show i + (j + 1) = i + 1 + j by omega] at hk
          exact hk

theorem waitLoop_success_iff (statuses : Nat → RunStatus) :
    ∀ (fuel i : Nat),
      ((waitLoop statuses fuel i).res = WaitResult.success ↔
        ∃ k, k < fuel ∧ statuses (i + k) = RunStatus.completed ∧
          ∀ j, j < k → stopsPolling (statuses (i + j)) = false) := by
  intro fuel
  induction fuel with
  | zero => intro i; simp [waitLoop]
  | succ f ih =>
    intro i
    rw [waitLoop]
    by_cases h1 : statuses i = RunStatus.completed
    · rw [if_pos h1]
      constructor
      · intro _
        exact ⟨0, Nat.succ_pos f, by rwa [Nat.add_zero],
          fun j hj => absurd hj (Nat.not_lt_zero j)⟩
      · intro _; rfl
    · rw [if_neg h1]
      by_cases h2 : isTerminalFailureStatus (statuses i) = true
      · rw [if_pos h2]
        constructor
        · intro h
          exact absurd
            (show WaitResult.terminalError (statuses i) = WaitResult.success
              from h) (by simp)
        · rintro ⟨k, _, hc, hp⟩
          cases k with
          | zero => rw [Nat.add_zero] at hc; exact absurd hc h1
          | succ m =>
            have h0 := hp 0 (Nat.succ_pos m)
            rw [Nat.add_zero, stopsPolling, h2] at h0
            simp at h0
      · rw [if_neg h2]
        have hres : (WaitStats.mk (waitLoop statuses f (i + 1)).res
            ((waitLoop statuses f (i + 1)).polls + 1)
            ((waitLoop statuses f (i + 1)).sleepMs + 1000)).res =
            (waitLoop statuses f (i + 1)).res := rfl
        rw [hres, ih (i + 1)]
        constructor
        · rintro ⟨k, hk, hc, hp⟩
          refine ⟨k + 1, by omega, ?_, ?_⟩
          · rw [show i + (k + 1) = i + 1 + k by omega]
            exact hc
          · intro j hj
            cases j with
            | zero =>
              rw [Nat.add_zero, stopsPolling]
              simp only [Bool.or_eq_false_iff, decide_eq_false_iff_not]
              exact ⟨h1, by simpa using h2⟩
            | succ m =>
              have hm := hp m (by omega)
              rw [show i + 1 + m = i + (m + 1) by omega] at hm
              exact hm
        · rintro ⟨k, hk, hc, hp⟩
          cases k with
          | zero => rw [Nat.add_zero] at hc; exact absurd hc h1
          | succ m =>
            refine ⟨m, by omega, ?_, ?_⟩
            · rw [show i + 1 + m = i + (m + 1) by omega]
              exact hc
            · intro j hj
              have hm := hp (j + 1) (by omega)
              rw [show i + (j + 1) = i + 1 + j by omega] at hm
              exact hm

theorem waitLoop_terminal (statuses : Nat → RunStatus) :
    ∀ (fuel i : Nat) (st : RunStatus),
      (waitLoop statuses fuel i).res = WaitResult.terminalError st →
        isTerminalFailureStatus st = true := by
  intro fuel
  induction fuel with
  | zero =>
    intro i st h
    exact absurd
      (show WaitResult.timedOut = WaitResult.terminalError st from h) (by simp)
  | succ f ih =>
    intro i st h
    rw [waitLoop] at h
    by_cases h1 : statuses i = RunStatus.completed
    · rw [if_pos h1] at h
      exact absurd
        (show WaitResult.success = WaitResult.terminalError st from h) (by simp)
    · rw [if_neg h1] at h
      by_cases h2 : isTerminalFailureStatus (statuses i) = true
      · rw [if_pos h2] at h
        have h3 : WaitResult.terminalError (statuses i) =
            WaitResult.terminalError st := h
        injection h3 with h4
        rw [← h4]
        exact h2
      · rw [if_neg h2] at h
        exact ih (i + 1) st h

theorem waitLoop_timedOut_stats (statuses : Nat → RunStatus) :
    ∀ (fuel i : Nat), (waitLoop statuses fuel i).res = WaitResult.timedOut →
      (waitLoop statuses fuel i).polls = fuel ∧
      (waitLoop statuses fuel i).sleepMs = 1000 * fuel := by
  intro fuel
  induction fuel with
  | zero => intro i _; exact ⟨rfl, rfl⟩
  | succ f ih =>
    intro i h
    rw [waitLoop] at h ⊢
    by_cases h1 : statuses i = RunStatus.completed
    · rw [if_pos h1] at h
      exact absurd (show WaitResult.success = WaitResult.timedOut from h)
        (by simp)
    · rw [if_neg h1] at h ⊢
      by_cases h2 : isTerminalFailureStatus (statuses i) = true
      · rw [if_pos h2] at h
        exact absurd
          (show WaitResult.terminalError (statuses i) = WaitResult.timedOut
            from h) (by simp)
      · rw [if_neg h2] at h ⊢
        have hr : (waitLoop statuses f (i + 1)).res = WaitResult.timedOut := h
        have hih := ih (i + 1) hr
        refine ⟨?_, ?_⟩
        · show (waitLoop statuses f (i + 1)).polls + 1 = f + 1
          omega
        · show (waitLoop statuses f (i + 1)).sleepMs + 1000 = 1000 * (f + 1)
          omega

theorem interviewCaptureStep_inv (s : StreamCount) (e : CaptureEvent)
    (h : s.openStreams = if s.refOpen then 1 else 0)
    (hp : s.openStreams + s.pending ≤ 1)
    (hg : startGuard s e = true) :
    (interviewCaptureStep s e).openStreams =
      (if (interviewCaptureStep s e).refOpen then 1 else 0) ∧
    (interviewCaptureStep s e).openStreams +
      (interviewCaptureStep s e).pending ≤ 1 := by
  cases e with
  | startCall =>
    have hp0 : s.pending = 0 := by simpa [startGuard] using hg
    cases hr : s.refOpen <;> simp [interviewCaptureStep, hr] at h ⊢ <;> omega
  | acquireOk =>
    by_cases hp0 : s.pending = 0
    · simp only [interviewCaptureStep, if_pos hp0]
      exact ⟨h, hp⟩
    · simp only [interviewCaptureStep, if_neg hp0]
      refine ⟨?_, ?_⟩
      · show s.openStreams + 1 = 1
        omega
      · show s.openStreams + 1 + (s.pending - 1) ≤ 1
        omega
  | acquireFail =>
    by_cases hp0 : s.pending = 0
    · simp only [interviewCaptureStep, if_pos hp0]
      exact ⟨h, hp⟩
    · simp only [interviewCaptureStep, if_neg hp0]
      exact ⟨h, by omega⟩
  | stopRec =>
    cases hr : s.refOpen <;> simp [interviewCaptureStep, hr] at h ⊢ <;> omega
  | release =>
    cases hr : s.refOpen <;> simp [interviewCaptureStep, hr] at h ⊢ <;> omega

theorem micTestCaptureStep_inv (s : StreamCount) (e : CaptureEvent)
    (h : s.openStreams = if s.refOpen then 1 else 0)
    (hp : s.openStreams + s.pending ≤ 1)
    (hg : startGuard s e = true) :
    (micTestCaptureStep s e).openStreams =
      (if (micTestCaptureStep s e).refOpen then 1 else 0) ∧
    (micTestCaptureStep s e).openStreams +
      (micTestCaptureStep s e).pending ≤ 1 := by
  cases e with
  | startCall =>
    have hp0 : s.pending = 0 := by simpa [startGuard] using hg
    cases hr : s.refOpen <;> simp [micTestCaptureStep, hr] at h ⊢ <;> omega
  | acquireOk =>
    by_cases hp0 : s.pending = 0
    · simp only [micTestCaptureStep, if_pos hp0]
      exact ⟨h, hp⟩
    · simp only [micTestCaptureStep, if_neg hp0]
      refine ⟨?_, ?_⟩
      · show s.openStreams + 1 = 1
        omega
      · show s.openStreams + 1 + (s.pending - 1) ≤ 1
        omega
  | acquireFail =>
    by_cases hp0 : s.pending = 0
    · simp only [micTestCaptureStep, if_pos hp0]
      exact ⟨h, hp⟩
    · simp only [micTestCaptureStep, if_neg hp0]
      exact ⟨h, by omega⟩
  | stopRec => exact ⟨h, hp⟩
  | release =>
    cases hr : s.refOpen <;> simp [micTestCaptureStep, hr] at h ⊢ <;> omega

theorem interviewCapture_inv_run :
    ∀ (l : List CaptureEvent) (s : StreamCount),
      s.openStreams = (if s.refOpen then 1 else 0) →
      s.openStreams + s.pending ≤ 1 →
      overlapFree interviewCaptureStep s l = true →
      (l.foldl interviewCaptureStep s).openStreams ≤ 1 := by
  intro l
  induction l with
  | nil => intro s _ hp _; simpa using Nat.le_trans (Nat.le_add_right _ _) hp
  | cons e t ih =>
    intro s h hp hof
    rw [overlapFree, Bool.and_eq_true] at hof
    have hstep := interviewCaptureStep_inv s e h hp hof.1
    exact ih (interviewCaptureStep s e) hstep.1 hstep.2 hof.2

theorem micTestCapture_inv_run :
    ∀ (l : List CaptureEvent) (s : StreamCount),
      s.openStreams = (if s.refOpen then 1 else 0) →
      s.openStreams + s.pending ≤ 1 →
      overlapFree micTestCaptureStep s l = true →
      (l.foldl micTestCaptureStep s).openStreams ≤ 1 := by
  intro l
  induction l with
  | nil => intro s _ hp _; simpa using Nat.le_trans (Nat.le_add_right _ _) hp
  | cons e t ih =>
    intro s h hp hof
    rw [overlapFree, Bool.and_eq_true] at hof
    have hstep := micTestCaptureStep_inv s e h hp hof.1
    exact ih (micTestCaptureStep s e) hstep.1 hstep.2 hof.2

/-! ## Claim theorems -/

/-- Claim C1, counterexample: when the whisper response is ok but its text is
the empty string, processAudioToText does not record the text, surfaces a
recognition error, and does not schedule the next-question request — the
empty answer is not treated as a usable result, contrary to the claim. -/
theorem empty_transcription_not_recorded :
    processAudioToText [⟨"자기소개를 해주세요", "", 0⟩] 5
        (WhisperFetchOutcome.response true (some "")) =
      ⟨[⟨"자기소개를 해주세요", "", 0⟩], none, true⟩ := by
  decide

/-- Claim C1, amended: a successful transcription whose text is non-empty
(including whitespace-only text) is recorded unchanged as the open record
answer together with the measured duration, and the next-question request is
scheduled with that text; an empty-string transcription instead leaves the
log untouched, surfaces an error, and schedules nothing. -/
theorem whitespace_transcription_recorded (logs : List QA) (qa : QA) (d : Nat)
    (t : String) (h : t ≠ "") :
    processAudioToText (logs ++ [qa]) d
        (WhisperFetchOutcome.response true (some t)) =
      ⟨logs ++ [{ qa with aText := t, durationSec := d }], some t, false⟩ ∧
    processAudioToText (logs ++ [qa]) d
        (WhisperFetchOutcome.response true (some "")) =
      ⟨logs ++ [qa], none, true⟩ := by
  constructor
  · rw [processAudioToText, if_pos ⟨rfl, by simp [jsTruthy, h]⟩]
    simp [updateLastQA_append]
  · rw [processAudioToText, if_neg (by simp [jsTruthy])]

/-- Witness for the amended claim C1 at a whitespace-only transcription. -/
theorem whitespace_transcription_recorded_witness :
    (" " ≠ "") ∧
    (processAudioToText ([] ++ [⟨"질문1", "", 0⟩]) 3
        (WhisperFetchOutcome.response true (some " ")) =
      ⟨[] ++ [⟨"질문1", " ", 3⟩], some " ", false⟩ ∧
     processAudioToText ([] ++ [⟨"질문1", "", 0⟩]) 3
        (WhisperFetchOutcome.response true (some "")) =
      ⟨[] ++ [⟨"질문1", "", 0⟩], none, true⟩) :=
  ⟨by decide,
   whitespace_transcription_recorded [] ⟨"질문1", "", 0⟩ 3 " " (by decide)⟩

/-- Claim C2, counterexample: a reachable state of the interview component in
which recordingState = 1 and aiState = 1 hold at the same time.  The user
starts recording inside the one-second window between transcription success
and the delayed next-question call; when the timeout fires, startNextQuestion
sets aiState to 1 without consulting the recording state. -/
theorem recording_while_aiSpeaking_reachable :
    Reachable (runEvents racingTrace) ∧
    (runEvents racingTrace).recordingState = 1 ∧
    (runEvents racingTrace).aiState = 1 :=
  ⟨⟨racingTrace, rfl⟩, by decide, by decide⟩

/-- Claim C2, amended: a recording-start call made while aiState = 1 is
ignored as a no-op (toggleRecording returns without changing the state), but
the two flags are not mutually exclusive at every reachable instant. -/
theorem toggleRecording_noop_while_aiSpeaking (s : MachineState)
    (h : s.aiState = 1) :
    step s Event.toggle = s := by
  unfold step
  rw [if_pos (Or.inl h)]

/-- Witness for the amended claim C2 at a concrete AiSpeaking state. -/
theorem toggleRecording_noop_while_aiSpeaking_witness :
    ({ initMachineState with aiState := 1 } : MachineState).aiState = 1 ∧
    step { initMachineState with aiState := 1 } Event.toggle =
      { initMachineState with aiState := 1 } :=
  ⟨rfl, toggleRecording_noop_while_aiSpeaking _ rfl⟩

/-- Claim C3: serialization of a non-empty log at session end renders exactly
one segment of the form 질문 : Q, 답변 : A per record, in insertion order,
joined by the ", " separator with no trailing separator after the last
record. -/
theorem transcript_one_segment_per_turn (qaLogs : List QA) (h : qaLogs ≠ []) :
    interviewContent qaLogs =
      joinWith ", "
        (qaLogs.map (fun qa => "질문 : " ++ qa.q ++ ", 답변 : " ++ qa.aText)) := by
  rw [interviewContent_eq_joinWith qaLogs h]
  have hseg : qaSegment =
      fun qa => "질문 : " ++ qa.q ++ ", 답변 : " ++ qa.aText := by
    funext qa
    rw [qaSegment, answerText_eq]
  rw [hseg]

/-- Witness for claim C3 on a concrete two-record log. -/
theorem transcript_one_segment_per_turn_witness :
    (([⟨"질문1", "답변1", 3⟩, ⟨"질문2", "", 0⟩] : List QA) ≠ []) ∧
    interviewContent [⟨"질문1", "답변1", 3⟩, ⟨"질문2", "", 0⟩] =
      joinWith ", "
        (([⟨"질문1", "답변1", 3⟩, ⟨"질문2", "", 0⟩] : List QA).map
          (fun qa => "질문 : " ++ qa.q ++ ", 답변 : " ++ qa.aText)) :=
  ⟨by decide, transcript_one_segment_per_turn _ (by decide)⟩

/-- Claim C4: ending the session performs exactly one delivery attempt and
fires the completion callback regardless of the delivery outcome; with an
empty log the delivered transcript is the fixed no-records message. -/
theorem endInterview_single_delivery_and_completion
    (qaLogs : List QA) (cached : CachedData) (outcome : DeliveryOutcome) :
    (handleEndInterview qaLogs cached outcome).deliveryAttempts = 1 ∧
    (handleEndInterview qaLogs cached outcome).completionFired = true ∧
    (handleEndInterview [] cached outcome).transcriptSent =
      "면접 기록이 없습니다" := by
  cases outcome <;> simp [handleEndInterview, interviewContent]

/-- Claim C5: when synthesis fails (non-ok response, missing audio, or thrown
error) playTTS sets aiState to 2 without attempting playback; on autoplay
rejection it sets aiState to 2 at once; on a successful play start aiState
stays 1 and the ended handler then sets it to 2. -/
theorem playTTS_failure_signals_done :
    (playTTS SynthOutcome.httpError).aiState = 2 ∧
    (playTTS SynthOutcome.httpError).playAttempted = false ∧
    (playTTS SynthOutcome.thrown).aiState = 2 ∧
    (playTTS SynthOutcome.thrown).playAttempted = false ∧
    (playTTS (SynthOutcome.audio false)).aiState = 2 ∧
    (playTTS (SynthOutcome.audio true)).aiState = 1 ∧
    (onAudioEnded (playTTS (SynthOutcome.audio true))).aiState = 2 :=
  ⟨rfl, rfl, rfl, rfl, rfl, rfl, rfl⟩

/-- Claim C6: waitForRunCompletion makes at most 60 retrieve calls; it times
out exactly when none of the first 60 observed statuses is completed or a
terminal failure, succeeds exactly when a completed status is observed
within 60 attempts with no earlier stopping status, only throws a terminal
error for a failed, cancelled, or expired status, and on timeout has made
exactly 60 polls separated by fixed one-second sleeps (60000 ms in total) —
the wait is always bounded. -/
theorem waitForRunCompletion_bounded (statuses : Nat → RunStatus) :
    (waitForRunCompletion statuses).polls ≤ 60 ∧
    ((waitForRunCompletion statuses).res = WaitResult.timedOut ↔
      ∀ j, j < 60 → stopsPolling (statuses j) = false) ∧
    ((waitForRunCompletion statuses).res = WaitResult.success ↔
      ∃ k, k < 60 ∧ statuses k = RunStatus.completed ∧
        ∀ j, j < k → stopsPolling (statuses j) = false) ∧
    (∀ st, (waitForRunCompletion statuses).res = WaitResult.terminalError st →
      isTerminalFailureStatus st = true) ∧
    ((waitForRunCompletion statuses).res = WaitResult.timedOut →
      (waitForRunCompletion statuses).polls = 60 ∧
      (waitForRunCompletion statuses).sleepMs = 60000) := by
  unfold waitForRunCompletion maxPollAttempts
  refine ⟨waitLoop_polls_le statuses 60 0, ?_, ?_,
    waitLoop_terminal statuses 60 0, ?_⟩
  · rw [waitLoop_timedOut_iff statuses 60 0]
    simp only [Nat.zero_add]
  · rw [waitLoop_success_iff statuses 60 0]
    simp only [Nat.zero_add]
  · intro h
    have hs := waitLoop_timedOut_stats statuses 60 0 h
    omega

/-- Claim C7, counterexample: the start functions stop the old stream before
awaiting getUserMedia and only assign the reference after the await, so a
start issued while an earlier acquisition is still pending makes both
teardowns see no live stream; when both acquisitions resolve, the second
assignment overwrites the reference without stopping the first stream —
two streams are open at once, the first of them leaked.  Reachable in the
interview through start/stop/start on the record button and in MicTest
through the retry button, which is not disabled during a pending
acquisition. -/
theorem two_streams_reachable :
    (interviewCaptureRun overlappingStarts).openStreams = 2 ∧
    (micTestCaptureRun overlappingRetries).openStreams = 2 :=
  ⟨rfl, rfl⟩

/-- Claim C7, amended: every start first stops the previously referenced
stream, so after any sequence of capture events in which no start call is
issued while a getUserMedia acquisition is still pending, at most one
microphone stream is open, in both the interview component and the
microphone self-test; overlapping pending acquisitions, however, can leave
two streams open. -/
theorem capture_streams_at_most_one_without_overlap
    (evs1 evs2 : List CaptureEvent)
    (h1 : overlapFree interviewCaptureStep initStreams evs1 = true)
    (h2 : overlapFree micTestCaptureStep initStreams evs2 = true) :
    (interviewCaptureRun evs1).openStreams ≤ 1 ∧
    (micTestCaptureRun evs2).openStreams ≤ 1 :=
  ⟨interviewCapture_inv_run evs1 initStreams rfl (by decide) h1,
   micTestCapture_inv_run evs2 initStreams rfl (by decide) h2⟩

/-- Witness for the amended claim C7 on concrete overlap-free sequences. -/
theorem capture_streams_at_most_one_without_overlap_witness :
    overlapFree interviewCaptureStep initStreams
      [CaptureEvent.startCall, CaptureEvent.acquireOk, CaptureEvent.stopRec,
       CaptureEvent.startCall, CaptureEvent.acquireOk] = true ∧
    overlapFree micTestCaptureStep initStreams
      [CaptureEvent.startCall, CaptureEvent.acquireOk, CaptureEvent.stopRec,
       CaptureEvent.release] = true ∧
    (interviewCaptureRun
      [CaptureEvent.startCall, CaptureEvent.acquireOk, CaptureEvent.stopRec,
       CaptureEvent.startCall, CaptureEvent.acquireOk]).openStreams ≤ 1 ∧
    (micTestCaptureRun
      [CaptureEvent.startCall, CaptureEvent.acquireOk, CaptureEvent.stopRec,
       CaptureEvent.release]).openStreams ≤ 1 := by
  have h := capture_streams_at_most_one_without_overlap
    [CaptureEvent.startCall, CaptureEvent.acquireOk, CaptureEvent.stopRec,
     CaptureEvent.startCall, CaptureEvent.acquireOk]
    [CaptureEvent.startCall, CaptureEvent.acquireOk, CaptureEvent.stopRec,
     CaptureEvent.release] rfl rfl
  exact ⟨rfl, rfl, h.1, h.2⟩

/-- Claim C8: calling stop-capture when no capture session is open is a
no-op in both components: the reference state is unchanged and the recorder
stop call is never issued. -/
theorem stopCapture_idle_noop (si : InterviewRecorderRefs)
    (sm : MicTestRecorderRefs)
    (h1 : si.recorderActive = false) (h2 : si.animationFrame = false)
    (h3 : si.streamSet = false) (h4 : sm.timerSet = false)
    (h5 : sm.isRecording = false) (h6 : sm.animationFrame = false) :
    interviewStopRecording si = ⟨si, false⟩ ∧
    micTestStopRecording sm = ⟨sm, false⟩ := by
  constructor
  · simp [interviewStopRecording, h1, h2, h3]
  · simp [micTestStopRecording, h4, h5, h6]

/-- Witness for claim C8: idle interview references and MicTest references
that still hold an inactive recorder. -/
theorem stopCapture_idle_noop_witness :
    interviewStopRecording ⟨false, false, false⟩ =
      ⟨⟨false, false, false⟩, false⟩ ∧
    micTestStopRecording ⟨false, true, false, false⟩ =
      ⟨⟨false, true, false, false⟩, false⟩ :=
  stopCapture_idle_noop ⟨false, false, false⟩ ⟨false, true, false, false⟩
    rfl rfl rfl rfl rfl rfl

/-- Claim C9: in the microphone self-test, an empty or whitespace-only
transcription yields a failure outcome, a transcription with non-blank
content yields success, and the next-step button is enabled exactly on
success. -/
theorem micTest_requires_nonempty_text (s t : String)
    (hs : jsTrim s = "") (ht : jsTrim t ≠ "") :
    (handleRecordingComplete (MicWhisperOutcome.ok (some s))).isSuccess =
      false ∧
    micNextEnabled (handleRecordingComplete (MicWhisperOutcome.ok (some s))) =
      false ∧
    (handleRecordingComplete (MicWhisperOutcome.ok none)).isSuccess = false ∧
    (handleRecordingComplete (MicWhisperOutcome.ok (some t))).isSuccess =
      true ∧
    micNextEnabled (handleRecordingComplete (MicWhisperOutcome.ok (some t))) =
      true := by
  have htne : t ≠ "" := fun he => ht (by rw [he]; rfl)
  refine ⟨?_, ?_, ?_, ?_, ?_⟩
  · simp [handleRecordingComplete, hs]
  · simp [micNextEnabled, handleRecordingComplete, hs]
  · simp [handleRecordingComplete, jsTruthy]
  · simp [handleRecordingComplete, jsTruthy, htne, ht]
  · simp [micNextEnabled, handleRecordingComplete, jsTruthy, htne, ht]

/-- Witness for claim C9 at a whitespace-only and a non-blank
transcription. -/
theorem micTest_requires_nonempty_text_witness :
    jsTrim " " = "" ∧ jsTrim "안녕하세요" ≠ "" ∧
    (handleRecordingComplete (MicWhisperOutcome.ok (some " "))).isSuccess =
      false ∧
    (handleRecordingComplete
      (MicWhisperOutcome.ok (some "안녕하세요"))).isSuccess = true := by
  have h := micTest_requires_nonempty_text " " "안녕하세요" rfl (by decide)
  exact ⟨rfl, by decide, h.1, h.2.2.2.1⟩

/-- Claim C10: every record appended to the log appears in the delivered
transcript, including a still-open record whose answer was never set: the
question is appended with an empty answer as soon as it is received (before
playback is requested), and such a record is serialized with an empty answer
segment rather than being omitted. -/
theorem unanswered_turn_serialized (done : List QA) (q : String) :
    interviewContent (done ++ [⟨q, "", 0⟩]) =
      joinWith ", " (done.map qaSegment ++ ["질문 : " ++ q ++ ", 답변 : "]) ∧
    (startNextQuestion 2 done (AssistantOutcome.ok q)).qaLogs =
      done ++ [⟨q, "", 0⟩] ∧
    (startNextQuestion 2 done (AssistantOutcome.ok q)).ttsRequested = some q := by
  refine ⟨?_, rfl, rfl⟩
  rw [interviewContent_eq_joinWith _ (by simp), List.map_append]
  have hseg : ([⟨q, "", 0⟩] : List QA).map qaSegment =
      ["질문 : " ++ q ++ ", 답변 : "] := by
    simp [qaSegment, answerText, String.append_empty]
  rw [hseg]

end AiInterview
